import Mathlib

/-!
Verification of the CDC ingestion pipeline of
`src/ingest_incremental_cdc_clientes.py`.

The file shallowly embeds the five functions of the source module:

* `parse_test_decoding_row` (the decoder, driven by the regexes `_TBL_RE`
  and `_KV_RE`, lines 26-41 of the source),
* `fetch_cdc_changes` (lines 43-52; the database collaborator is passed in
  as a function, the options literal of the SQL text is the constant
  `cdcGetChangesOptions`),
* `process_cdc_for_cliente` (lines 54-68; the wall clock read
  `datetime.now()` is made an explicit parameter),
* `write_csv_to_minio` (lines 70-85; the MinIO `put_object` side effect is
  reified as the returned list of `PutCall`s, the wall clock is again an
  explicit parameter),
* the driver `main` (lines 116-128) as `runCycle`.

Machine strings are `String` / `List Char`; the regex semantics of the two
patterns is hand-compiled into total scanning functions, including the
backtracking behaviour of the group `([:A-Za-z0-9_]+):` and the lazy
`([^\s].*?)(?=...)` value capture of `_KV_RE`.
-/

/-! ## Character classes of the Python regexes -/

/-- Python whitespace, as matched by `str.strip` and by `\s` of the `re`
module on `str` (ASCII whitespace plus the Unicode whitespace code
points). -/
def isPySpace (c : Char) : Bool :=
  decide (c.toNat = 32 ∨ c.toNat = 9 ∨ c.toNat = 10 ∨ c.toNat = 13 ∨ c.toNat = 11 ∨ c.toNat = 12
    ∨ (28 ≤ c.toNat ∧ c.toNat ≤ 31) ∨ c.toNat = 133 ∨ c.toNat = 160 ∨ c.toNat = 5760
    ∨ (8192 ≤ c.toNat ∧ c.toNat ≤ 8202) ∨ c.toNat = 8232 ∨ c.toNat = 8233 ∨ c.toNat = 8239
    ∨ c.toNat = 8287 ∨ c.toNat = 12288)

/-- The character class `[A-Za-z0-9_]` of `_TBL_RE` and `_KV_RE`. -/
def isAsciiWordChar (c : Char) : Bool :=
  decide ((65 ≤ c.toNat ∧ c.toNat ≤ 90) ∨ (97 ≤ c.toNat ∧ c.toNat ≤ 122)
    ∨ (48 ≤ c.toNat ∧ c.toNat ≤ 57) ∨ c.toNat = 95)

/-- The character class `[:A-Za-z0-9_]` of group 2 of `_TBL_RE`. -/
def isTblNameChar (c : Char) : Bool := (c == ':') || isAsciiWordChar c

/-! ## Scanning primitives -/

/-- Split a list into its maximal run of `p`-characters and the remainder
(the semantics of a greedy character-class repetition). -/
def takeRun (p : Char → Bool) : List Char → List Char × List Char
  | [] => ([], [])
  | a :: l => if p a then ((a :: (takeRun p l).1), (takeRun p l).2) else ([], a :: l)

theorem takeRun_append (p : Char → Bool) (l : List Char) :
    (takeRun p l).1 ++ (takeRun p l).2 = l := by
  induction l with
  | nil => rfl
  | cons a l ih => by_cases h : p a <;> simp [takeRun, h, ih]

theorem takeRun_all (p : Char → Bool) (l : List Char) :
    (takeRun p l).1.all p = true := by
  induction l with
  | nil => rfl
  | cons a l ih => by_cases h : p a <;> simp [takeRun, h, ih]

theorem takeRun_rest_head (p : Char → Bool) (l : List Char) (c : Char) (t : List Char)
    (h : (takeRun p l).2 = c :: t) : p c = false := by
  induction l with
  | nil => simp [takeRun] at h
  | cons a l ih =>
    by_cases hp : p a
    · simp only [takeRun, if_pos hp] at h
      exact ih h
    · simp only [takeRun, if_neg hp] at h
      obtain ⟨rfl, rfl⟩ := List.cons.injEq .. ▸ h
      exact Bool.not_eq_true _ ▸ hp

/-- `str.strip()`: drop leading and trailing whitespace. -/
def pyStrip (l : List Char) : List Char :=
  ((l.dropWhile isPySpace).reverse.dropWhile isPySpace).reverse

theorem isPrefixOf_exists {a l : List Char} (h : a.isPrefixOf l = true) :
    l = a ++ l.drop a.length := by
  induction a generalizing l with
  | nil => simp
  | cons x a ih =>
    cases l with
    | nil => simp [List.isPrefixOf] at h
    | cons y l =>
      simp only [List.isPrefixOf, Bool.and_eq_true, beq_iff_eq] at h
      obtain ⟨rfl, h2⟩ := h
      simpa using ih h2

/-! ## The table-line regex `_TBL_RE`

`^table\s+([^.]+)\.([:A-Za-z0-9_]+):\s+(INSERT|UPDATE|DELETE):\s+(.*)$`

applied with `re.match` to the stripped line.  The groups of a successful
match are deterministic except for group 2, whose greedy repetition can
contain `:` and therefore backtracks over the candidate terminating colons
(longest group first); `trySplits` performs exactly this search. -/

/-- Groups of a successful `_TBL_RE` match: `schema`, `tbl` (the regex
group 2), the operation keyword and the tail matched by `(.*)$`. -/
structure TblGroups where
  schema : List Char
  tbl : List Char
  op : String
  rest : List Char
deriving Repr, DecidableEq

/-- The alternation `(INSERT|UPDATE|DELETE):` anchored at the head. -/
def opSplit (u : List Char) : Option (String × List Char) :=
  if "INSERT:".data.isPrefixOf u then some ("INSERT", u.drop 7)
  else if "UPDATE:".data.isPrefixOf u then some ("UPDATE", u.drop 7)
  else if "DELETE:".data.isPrefixOf u then some ("DELETE", u.drop 7)
  else none

/-- `(.*)$` of a Python non-multiline pattern: `.` cannot cross a newline
and `$` holds at the end of the string or just before one final newline. -/
def dollarTail (u : List Char) : Option (List Char) :=
  let br := takeRun (fun c => !(c == '\n')) u
  match br.2 with
  | [] => some br.1
  | ['\n'] => some br.1
  | _ => none

/-- The suffix `\s+(INSERT|UPDATE|DELETE):\s+(.*)$` of `_TBL_RE`. -/
def contMatch (u : List Char) : Option (String × List Char) :=
  let wr := takeRun isPySpace u
  if wr.1.isEmpty then none
  else
    match opSplit wr.2 with
    | none => none
    | some (op, u2) =>
      let w3 := takeRun isPySpace u2
      if w3.1.isEmpty then none
      else
        match dollarTail w3.2 with
        | none => none
        | some g4 => some (op, g4)

/-- All decompositions `l = g2 ++ ':' :: t2`, by increasing length of `g2`. -/
def colonSplits : List Char → List (List Char × List Char)
  | [] => []
  | c :: t =>
    (if c = ':' then [(([] : List Char), t)] else [])
      ++ (colonSplits t).map (fun p => (c :: p.1, p.2))

/-- Backtracking search over the candidate terminating colons of the greedy
group `([:A-Za-z0-9_]+):`, longest candidate group first. -/
def trySplits (g1 : List Char) (r3 : List Char) :
    List (List Char × List Char) → Option TblGroups
  | [] => none
  | (g2, tail2) :: more =>
    match contMatch (tail2 ++ r3) with
    | some (op, g4) => some ⟨g1, g2, op, g4⟩
    | none => trySplits g1 r3 more

/-- `_TBL_RE` after the literal `table`: `\s+([^.]+)\.` then group 2 and the
rest.  When the maximal whitespace run is immediately followed by the dot,
the greedy `\s+` gives one whitespace character back to the non-empty group
`([^.]+)` (possible only when the run has at least two characters). -/
def tblAfter (r0 : List Char) : Option TblGroups :=
  let wr := takeRun isPySpace r0
  if wr.1.isEmpty then none
  else
    let dr := takeRun (fun c => !(c == '.')) wr.2
    match dr.2 with
    | [] => none
    | _ :: r2 =>
      if dr.1.isEmpty && decide (wr.1.length < 2) then none
      else
        let g1 := if dr.1.isEmpty then wr.1.drop (wr.1.length - 1) else dr.1
        let rr := takeRun isTblNameChar r2
        trySplits g1 rr.2 (((colonSplits rr.1).filter (fun p => !p.1.isEmpty)).reverse)

/-- `_TBL_RE.match` on an already stripped line. -/
def tblMatch (s : List Char) : Option TblGroups :=
  if "table".data.isPrefixOf s then tblAfter (s.drop 5) else none

/-! ## The column regex `_KV_RE`

`([A-Za-z0-9_]+)\[[^\]]+\]:([^\s].*?)(?=\s+[A-Za-z0-9_]+\[|\s*$)`

iterated with `finditer` over group 4 of the table match. -/

/-- The lookahead `(?=\s+[A-Za-z0-9_]+\[|\s*$)` tested at a position. -/
def kvLookahead (t : List Char) : Bool :=
  (let wr := takeRun isPySpace t
   if wr.1.isEmpty then false
   else
     let cr := takeRun isAsciiWordChar wr.2
     if cr.1.isEmpty then false
     else
       match cr.2 with
       | '[' :: _ => true
       | _ => false)
  || t.all isPySpace

/-- The lazy `.*?` of the value group: extend one (non-newline) character at
a time until the lookahead holds.  Returns the captured extension and the
remainder of the input (the lookahead is not consumed). -/
def lazyValue (acc : List Char) (t : List Char) : Option (List Char × List Char) :=
  if kvLookahead t then some (acc.reverse, t)
  else
    match t with
    | [] => none
    | c :: t2 => if c == '\n' then none else lazyValue (c :: acc) t2

/-- One `_KV_RE` match attempt anchored at the head of `s`: key run, `[`,
non-empty bracket run, `]:`, one non-whitespace value character, then the
lazy extension.  Returns `(key, raw value, remainder)`. -/
def kvMatchHere (s : List Char) : Option (List Char × List Char × List Char) :=
  let kr := takeRun isAsciiWordChar s
  if kr.1.isEmpty then none
  else
    match kr.2 with
    | '[' :: s2 =>
      let br := takeRun (fun c => !(c == ']')) s2
      if br.1.isEmpty then none
      else
        (match br.2 with
        | ']' :: ':' :: c0 :: s6 =>
          if isPySpace c0 then none
          else
            match lazyValue [] s6 with
            | none => none
            | some vr => some (kr.1, c0 :: vr.1, vr.2)
        | _ => none)
    | _ => none

/-- `finditer` driver: try a match at every start position, left to right,
resuming after the consumed part of each match.  One fuel unit is spent per
step and every step strictly shortens the input, so `fuel = s.length`
suffices (see `kvMatchHere_shorter`). -/
def kvScanAux : Nat → List Char → List (List Char × List Char)
  | 0, _ => []
  | fuel + 1, s =>
    match s with
    | [] => []
    | _ :: t =>
      match kvMatchHere s with
      | some kvr => (kvr.1, kvr.2.1) :: kvScanAux fuel kvr.2.2
      | none => kvScanAux fuel t

/-- All `_KV_RE` matches of `s`, in order, as `(key, raw value)` pairs. -/
def kvScan (s : List Char) : List (List Char × List Char) := kvScanAux s.length s

/-! ## Value clean-up and the column dictionary (source lines 34-41) -/

/-- Lines 37-39 of the source: `v = v.strip()`, then one outer pair of
single quotes is removed when the value has length at least two and both
ends are a single quote.  Nothing else is rewritten. -/
def cleanValue (v0 : List Char) : List Char :=
  let v := pyStrip v0
  if 2 ≤ v.length ∧ v.head? = some '\x27' ∧ v.getLast? = some '\x27' then
    (v.drop 1).dropLast
  else v

/-- Python `dict` assignment `cols[k] = v`: an existing key keeps its
position and receives the new value, a new key is appended. -/
def dictInsert (m : List (String × String)) (k v : String) : List (String × String) :=
  if m.any (fun p => p.1 == k) then m.map (fun p => if p.1 == k then (k, v) else p)
  else m ++ [(k, v)]

/-- The `for km in _KV_RE.finditer(rest)` loop building `cols`. -/
def parseCols (rest : List Char) : List (String × String) :=
  (kvScan rest).foldl
    (fun m kv => dictInsert m (String.mk kv.1) (String.mk (cleanValue kv.2))) []

/-- The structured result of `parse_test_decoding_row` (a non-empty Python
dict; the empty dict of a failed match is `none`). -/
structure DecodedChange where
  schema : String
  table : String
  op : String
  cols : List (String × String)
deriving Repr, DecidableEq

/-- Source lines 29-41: strip the raw line, match `_TBL_RE`, then collect
the `name[type]:value` tokens of the tail. -/
def parse_test_decoding_row (raw : String) : Option DecodedChange :=
  match tblMatch (pyStrip raw.data) with
  | none => none
  | some g => some ⟨String.mk g.schema, String.mk g.tbl, g.op, parseCols g.rest⟩

/-! ## `json.dumps(..., ensure_ascii=False)` on a string-to-string dict -/

/-- Hexadecimal digit characters used by the `\u00XX` escapes. -/
def hexDigitChar : Nat → Char
  | 0 => '0' | 1 => '1' | 2 => '2' | 3 => '3' | 4 => '4' | 5 => '5' | 6 => '6'
  | 7 => '7' | 8 => '8' | 9 => '9' | 10 => 'a' | 11 => 'b' | 12 => 'c' | 13 => 'd'
  | 14 => 'e' | _ => 'f'

/-- JSON string escaping with `ensure_ascii=False`: only the quote, the
backslash and the control characters below 0x20 are escaped; everything
else passes through verbatim. -/
def jsonEscChar (c : Char) : List Char :=
  if c = '"' then ['\\', '"']
  else if c = '\\' then ['\\', '\\']
  else if c = '\n' then ['\\', 'n']
  else if c = '\r' then ['\\', 'r']
  else if c = '\t' then ['\\', 't']
  else if c = '\x08' then ['\\', 'b']
  else if c = '\x0c' then ['\\', 'f']
  else if c.toNat < 32 then ['\\', 'u', '0', '0', hexDigitChar (c.toNat / 16), hexDigitChar (c.toNat % 16)]
  else [c]

def jsonEscStr : List Char → List Char
  | [] => []
  | c :: t => jsonEscChar c ++ jsonEscStr t

/-- One `"key": "value"` item (the default item separators of
`json.dumps`). -/
def jsonPair (k v : String) : List Char :=
  '"' :: jsonEscStr k.data ++ '"' :: ':' :: ' ' :: '"' :: jsonEscStr v.data ++ ['"']

/-- Join with the default `", "` separator. -/
def jsonJoin : List (List Char) → List Char
  | [] => []
  | [x] => x
  | x :: xs => x ++ ',' :: ' ' :: jsonJoin xs

/-- `json.dumps(cols, ensure_ascii=False)` for the insertion-ordered
string dict `cols`. -/
def jsonDumps (m : List (String × String)) : String :=
  String.mk ('\x7b' :: jsonJoin (m.map (fun kv => jsonPair kv.1 kv.2)) ++ ['\x7d'])

/-! ## Wall-clock values and their renderings -/

/-- A `datetime.datetime` value as read from the wall clock.  The two
clock reads of the source (line 56 in the filter, line 71 in the writer)
become explicit parameters of this type. -/
structure PyDatetime where
  year : Nat
  month : Nat
  day : Nat
  hour : Nat
  minute : Nat
  second : Nat
  microsecond : Nat
deriving Repr, DecidableEq

def digitChar : Nat → Char
  | 0 => '0' | 1 => '1' | 2 => '2' | 3 => '3' | 4 => '4'
  | 5 => '5' | 6 => '6' | 7 => '7' | 8 => '8' | _ => '9'

/-- Decimal digits of `n`, most significant first.  The fuel only bounds
the recursion depth; `n + 1` units always suffice since the value shrinks
by a factor of ten per step. -/
def natToDigitsAux : Nat → Nat → List Char
  | 0, _ => []
  | fuel + 1, n => if n < 10 then [digitChar n] else natToDigitsAux fuel (n / 10) ++ [digitChar (n % 10)]

def natToDigits (n : Nat) : List Char := natToDigitsAux (n + 1) n

/-- Zero-padded decimal rendering (`%02d`, `%04d`, `%06d`). -/
def padTo (w n : Nat) : List Char :=
  List.replicate (w - (natToDigits n).length) '0' ++ natToDigits n

/-- `datetime.isoformat()`: `YYYY-MM-DDTHH:MM:SS`, with `.ffffff` appended
only when the microsecond field is non-zero. -/
def isoformat (t : PyDatetime) : String :=
  String.mk (padTo 4 t.year ++ '-' :: padTo 2 t.month ++ '-' :: padTo 2 t.day
    ++ 'T' :: padTo 2 t.hour ++ ':' :: padTo 2 t.minute ++ ':' :: padTo 2 t.second
    ++ (if t.microsecond = 0 then [] else '.' :: padTo 6 t.microsecond))

/-- `strftime("%Y%m%d")` (the date part of `"data=%Y%m%d"`). -/
def strfDate (t : PyDatetime) : String :=
  String.mk (padTo 4 t.year ++ padTo 2 t.month ++ padTo 2 t.day)

/-- `strftime("%Y%m%d_%H%M%S")`. -/
def strfFileTs (t : PyDatetime) : String :=
  String.mk (padTo 4 t.year ++ padTo 2 t.month ++ padTo 2 t.day
    ++ '_' :: (padTo 2 t.hour ++ padTo 2 t.minute ++ padTo 2 t.second))

/-! ## Records and the filter (source lines 43-68) -/

/-- One row returned by `pg_logical_slot_get_changes`, as stored by
`fetch_cdc_changes` (source lines 50-51). -/
structure RawRow where
  lsn : String
  xid : Int
  data : String
deriving Repr, DecidableEq

/-- One output row of the DataFrame built at lines 62-67; the dict keys,
in insertion order, are `capture_ts`, `lsn`, `op`, `columns`. -/
structure CapturedRecord where
  capture_ts : String
  lsn : String
  op : String
  columns : String
deriving Repr, DecidableEq

/-- The options literal of the SQL text at line 47 of the source. -/
def cdcGetChangesOptions : List (String × String) :=
  [("include-xids", "0"), ("skip-empty-xacts", "1")]

/-- `fetch_cdc_changes` (lines 43-52): issue one `get_changes` call with
the option literal and collect the `(lsn, xid, data)` rows in order. -/
def fetch_cdc_changes
    (getChanges : String → Option String → Int → List (String × String) → List (String × Int × String))
    (slotName : String) (lim : Int) : List RawRow :=
  (getChanges slotName none lim cdcGetChangesOptions).map (fun row => ⟨row.1, row.2.1, row.2.2⟩)

/-- The body of the `for r in raw_rows` loop of `process_cdc_for_cliente`
(lines 57-67): decode, then keep the row only when schema and table both
equal the target exactly. -/
def captureRecordOf (capture_ts : String) (targetSchema targetTable : String)
    (r : RawRow) : Option CapturedRecord :=
  match parse_test_decoding_row r.data with
  | none => none
  | some p =>
    if p.schema = targetSchema ∧ p.table = targetTable then
      some ⟨capture_ts, r.lsn, p.op, jsonDumps p.cols⟩
    else none

/-- `process_cdc_for_cliente` (lines 54-68): one capture timestamp is taken
before the loop and shared by every produced record. -/
def process_cdc_for_cliente (now : PyDatetime) (rawRows : List RawRow)
    (targetSchema targetTable : String) : List CapturedRecord :=
  rawRows.filterMap (captureRecordOf (isoformat now) targetSchema targetTable)

/-! ## CSV encoding (`DataFrame.to_csv(index=False)`) and the writer -/

/-- Minimal quoting: a field is quoted iff it contains the separator, the
quote character or a line break. -/
def csvNeedsQuote (s : String) : Bool :=
  s.data.any (fun c => (c == ',') || (c == '"') || (c == '\n') || (c == '\r'))

/-- Inside a quoted field the quote character is doubled. -/
def csvEscape : List Char → List Char
  | [] => []
  | c :: t => (if c = '"' then ['"', '"'] else [c]) ++ csvEscape t

def csvField (s : String) : String :=
  if csvNeedsQuote s then "\"" ++ String.mk (csvEscape s.data) ++ "\"" else s

/-- One data row of the DataFrame, in the column order of the dict keys of
line 62-67 of the source. -/
def csvRow (r : CapturedRecord) : String :=
  csvField r.capture_ts ++ "," ++ csvField r.lsn ++ "," ++ csvField r.op
    ++ "," ++ csvField r.columns

def csvHeader : String := "capture_ts,lsn,op,columns"

def concatStrings : List String → String
  | [] => ""
  | s :: t => s ++ concatStrings t

/-- `df.to_csv(index=False)`: header line then one newline-terminated line
per record; the empty DataFrame of line 68 renders as a sole newline. -/
def dfToCsv (recs : List CapturedRecord) : String :=
  if recs.isEmpty then "\n"
  else csvHeader ++ "\n" ++ concatStrings (recs.map (fun r => csvRow r ++ "\n"))

/-- One `put_object` call against the sink. -/
structure PutCall where
  bucket : String
  objectName : String
  content : String
  contentType : String
deriving Repr, DecidableEq

structure WriteResult where
  objectName : String
  puts : List PutCall
deriving Repr, DecidableEq

/-- `write_csv_to_minio` (lines 70-85): the object path is derived from the
wall clock read at line 71, and one unconditional `put_object` call is
issued with the CSV bytes. -/
def write_csv_to_minio (now : PyDatetime) (bucket basePath : String)
    (recs : List CapturedRecord) (pfx : String) : WriteResult :=
  let datePartitionStr := "data=" ++ strfDate now
  let fileName := pfx ++ "_" ++ strfFileTs now ++ ".csv"
  let objectName := basePath ++ datePartitionStr ++ "/" ++ fileName
  ⟨objectName, [⟨bucket, objectName, dfToCsv recs, "text/csv"⟩]⟩

/-- Outcome of one pipeline cycle: counts, the reported destination, and
the sink calls that were performed. -/
structure CycleResult where
  entriesFetched : Nat
  recordsWritten : Nat
  destinationPath : Option String
  puts : List PutCall
deriving Repr, DecidableEq

/-- The driver logic of `main` (lines 116-128): an empty fetch and an
empty filtered DataFrame both end the cycle before the writer is invoked. -/
def runCycle (tCapture tWrite : PyDatetime) (rawRows : List RawRow)
    (targetSchema targetTable bucket basePath pfx : String) : CycleResult :=
  if rawRows.isEmpty then ⟨rawRows.length, 0, none, []⟩
  else
    let recs := process_cdc_for_cliente tCapture rawRows targetSchema targetTable
    if recs.isEmpty then ⟨rawRows.length, 0, none, []⟩
    else
      let w := write_csv_to_minio tWrite bucket basePath recs pfx
      ⟨rawRows.length, recs.length, some w.objectName, w.puts⟩

/-! ## Physical lines of the CSV text -/

/-- Segments of a character list between newline characters.  A text with
`n` newlines yields `n + 1` segments; a text consisting of `k`
newline-terminated lines yields the `k` lines followed by one final empty
segment. -/
def splitOnNewline : List Char → List (List Char)
  | [] => [[]]
  | c :: t =>
    if c = '\n' then [] :: splitOnNewline t
    else
      match splitOnNewline t with
      | [] => [[c]]
      | l :: ls => (c :: l) :: ls

theorem splitOnNewline_ne_nil (l : List Char) : splitOnNewline l ≠ [] := by
  induction l with
  | nil => simp [splitOnNewline]
  | cons c t ih =>
    by_cases h : c = '\n'
    · simp [splitOnNewline, h]
    · simp only [splitOnNewline, if_neg h]
      cases htl : splitOnNewline t with
      | nil => simp
      | cons l ls => simp

theorem splitOnNewline_append (a b : List Char) (h : '\n' ∉ a) :
    splitOnNewline (a ++ '\n' :: b) = a :: splitOnNewline b := by
  induction a with
  | nil => simp [splitOnNewline]
  | cons c a ih =>
    have hc : c ≠ '\n' := fun hc => h (hc ▸ List.mem_cons_self c a)
    have ha : '\n' ∉ a := fun ha => h (List.mem_cons_of_mem c ha)
    simp only [List.cons_append, splitOnNewline, if_neg hc, List.append_eq]
    rw [ih ha]

theorem strData_append (s t : String) : (s ++ t).data = s.data ++ t.data := rfl

/-! ## Newline-freeness of every rendered field -/

theorem digitChar_ne_nl (n : Nat) : digitChar n ≠ '\n' := by
  unfold digitChar
  split <;> decide

theorem natToDigitsAux_no_nl (fuel n : Nat) : '\n' ∉ natToDigitsAux fuel n := by
  induction fuel generalizing n with
  | zero => simp [natToDigitsAux]
  | succ fuel ih =>
    by_cases h : n < 10
    · simp only [natToDigitsAux, if_pos h, List.mem_singleton]
      exact fun hc => digitChar_ne_nl n hc.symm
    · simp only [natToDigitsAux, if_neg h, List.mem_append, List.mem_singleton]
      rintro (hm | hm)
      · exact ih (n / 10) hm
      · exact digitChar_ne_nl (n % 10) hm.symm

theorem padTo_no_nl (w n : Nat) : '\n' ∉ padTo w n := by
  simp only [padTo, List.mem_append, List.mem_replicate]
  rintro (⟨-, hc⟩ | hm)
  · exact absurd hc (by decide)
  · exact natToDigitsAux_no_nl _ _ hm

theorem isoMicro_no_nl (n : Nat) :
    '\n' ∉ (if n = 0 then ([] : List Char) else '.' :: padTo 6 n) := by
  split
  · simp
  · simp only [List.mem_cons, not_or]
    exact ⟨by decide, padTo_no_nl _ _⟩

theorem isoformat_no_nl (t : PyDatetime) : '\n' ∉ (isoformat t).data := by
  simp only [isoformat, String.mk, List.mem_append, List.mem_cons, not_or]
  repeat' apply And.intro
  all_goals first
    | exact padTo_no_nl _ _
    | decide
    | exact isoMicro_no_nl t.microsecond

theorem hexDigitChar_ne_nl (n : Nat) : hexDigitChar n ≠ '\n' := by
  unfold hexDigitChar
  split <;> decide

theorem jsonEscChar_no_nl (c : Char) : '\n' ∉ jsonEscChar c := by
  unfold jsonEscChar
  split_ifs with h1 h2 h3 h4 h5 h6 h7 h8
  · decide
  · decide
  · decide
  · decide
  · decide
  · decide
  · decide
  · simp only [List.mem_cons, List.mem_singleton, List.not_mem_nil, not_or]
    repeat' apply And.intro
    all_goals first
      | decide
      | exact fun h => hexDigitChar_ne_nl _ h.symm
  · simp only [List.mem_singleton]
    exact fun h => h3 h.symm

theorem jsonEscStr_no_nl (l : List Char) : '\n' ∉ jsonEscStr l := by
  induction l with
  | nil => simp [jsonEscStr]
  | cons c t ih =>
    simp only [jsonEscStr, List.mem_append]
    rintro (h | h)
    · exact jsonEscChar_no_nl c h
    · exact ih h

theorem jsonPair_no_nl (k v : String) : '\n' ∉ jsonPair k v := by
  simp only [jsonPair, List.mem_cons, List.mem_append, List.mem_singleton, not_or]
  repeat' apply And.intro
  all_goals first
    | decide
    | exact jsonEscStr_no_nl _

theorem jsonJoin_no_nl (ls : List (List Char)) (h : ∀ x ∈ ls, '\n' ∉ x) :
    '\n' ∉ jsonJoin ls := by
  induction ls with
  | nil => simp [jsonJoin]
  | cons x xs ih =>
    cases xs with
    | nil => simpa [jsonJoin] using h x (List.mem_cons_self x [])
    | cons y ys =>
      simp only [jsonJoin, List.mem_append, List.mem_cons, not_or]
      exact ⟨h x (List.mem_cons_self _ _), by decide, by decide,
        ih (fun z hz => h z (List.mem_cons_of_mem x hz))⟩

theorem jsonDumps_no_nl (m : List (String × String)) : '\n' ∉ (jsonDumps m).data := by
  have hjoin : '\n' ∉ jsonJoin (m.map (fun kv => jsonPair kv.1 kv.2)) := by
    refine jsonJoin_no_nl _ ?_
    intro x hx
    obtain ⟨kv, -, rfl⟩ := List.mem_map.mp hx
    exact jsonPair_no_nl kv.1 kv.2
  simp only [jsonDumps, String.mk, List.mem_cons, List.mem_append, List.mem_singleton, not_or]
  repeat' apply And.intro
  all_goals first
    | decide
    | exact hjoin

theorem csvEscape_no_nl (l : List Char) (h : '\n' ∉ l) : '\n' ∉ csvEscape l := by
  induction l with
  | nil => simp [csvEscape]
  | cons c t ih =>
    have hc : c ≠ '\n' := fun hc => h (hc ▸ List.mem_cons_self c t)
    have ht : '\n' ∉ t := fun hm => h (List.mem_cons_of_mem c hm)
    simp only [csvEscape, List.mem_append]
    rintro (hm | hm)
    · revert hm
      split
      · decide
      · simp only [List.mem_singleton]
        exact fun hm => hc hm.symm
    · exact ih ht hm

theorem csvField_no_nl (s : String) (h : '\n' ∉ s.data) : '\n' ∉ (csvField s).data := by
  unfold csvField
  split
  · simp only [strData_append, String.mk, List.mem_append]
    rintro ((hm | hm) | hm)
    · exact absurd hm (by decide)
    · exact csvEscape_no_nl _ h hm
    · exact absurd hm (by decide)
  · exact h

theorem csvRow_no_nl (r : CapturedRecord)
    (h1 : '\n' ∉ r.capture_ts.data) (h2 : '\n' ∉ r.lsn.data)
    (h3 : '\n' ∉ r.op.data) (h4 : '\n' ∉ r.columns.data) :
    '\n' ∉ (csvRow r).data := by
  simp only [csvRow, strData_append, List.mem_append]
  rintro (((((((hm | hm) | hm) | hm) | hm) | hm) | hm))
  · exact csvField_no_nl _ h1 hm
  · exact absurd hm (by decide)
  · exact csvField_no_nl _ h2 hm
  · exact absurd hm (by decide)
  · exact csvField_no_nl _ h3 hm
  · exact absurd hm (by decide)
  · exact csvField_no_nl _ h4 hm

/-! ## Line structure of `dfToCsv` -/

theorem concatStrings_split (rows : List String) (h : ∀ s ∈ rows, '\n' ∉ s.data) :
    splitOnNewline (concatStrings (rows.map (fun s => s ++ "\n"))).data
      = rows.map String.data ++ [[]] := by
  induction rows with
  | nil => simp [concatStrings, splitOnNewline, String.data]
  | cons s rows ih =>
    have hs : '\n' ∉ s.data := h s (List.mem_cons_self _ _)
    have hd : ((s ++ "\n") ++ concatStrings (rows.map (fun s => s ++ "\n"))).data
        = s.data ++ '\n' :: (concatStrings (rows.map (fun s => s ++ "\n"))).data := by
      simp [strData_append]
    simp only [List.map_cons, concatStrings, hd]
    rw [splitOnNewline_append _ _ hs, ih (fun x hx => h x (List.mem_cons_of_mem s hx))]
    simp

theorem dfToCsv_split (recs : List CapturedRecord) (hne : recs ≠ [])
    (hrow : ∀ r ∈ recs, '\n' ∉ (csvRow r).data) :
    splitOnNewline (dfToCsv recs).data
      = csvHeader.data :: (recs.map (fun r => (csvRow r).data) ++ [[]]) := by
  have hempty : recs.isEmpty = false := by
    cases recs with
    | nil => exact absurd rfl hne
    | cons r rs => rfl
  have hmm : recs.map (fun r => csvRow r ++ "\n") = (recs.map csvRow).map (fun s => s ++ "\n") := by
    simp
  have hd : (csvHeader ++ "\n" ++ concatStrings ((recs.map csvRow).map (fun s => s ++ "\n"))).data
      = csvHeader.data ++ '\n' :: (concatStrings ((recs.map csvRow).map (fun s => s ++ "\n"))).data := by
    simp [strData_append]
  have hh : '\n' ∉ csvHeader.data := by decide
  unfold dfToCsv
  rw [if_neg (by simp [hempty]), hmm, hd]
  rw [splitOnNewline_append _ _ hh,
    concatStrings_split (recs.map csvRow) (by
      intro s hs
      obtain ⟨r, hr, rfl⟩ := List.mem_map.mp hs
      exact hrow r hr)]
  simp

/-! ## Shape of a successful `_TBL_RE` match -/

theorem opSplit_spec {u : List Char} {op : String} {u2 : List Char}
    (h : opSplit u = some (op, u2)) :
    u = op.data ++ ':' :: u2 ∧ (op = "INSERT" ∨ op = "UPDATE" ∨ op = "DELETE") := by
  unfold opSplit at h
  split_ifs at h with h1 h2 h3
  · simp only [Option.some.injEq, Prod.mk.injEq] at h
    obtain ⟨rfl, rfl⟩ := h
    have hu : u = "INSERT:".data ++ u.drop 7 := by simpa using isPrefixOf_exists h1
    constructor
    · rw [hu]
      rfl
    · exact Or.inl rfl
  · simp only [Option.some.injEq, Prod.mk.injEq] at h
    obtain ⟨rfl, rfl⟩ := h
    have hu : u = "UPDATE:".data ++ u.drop 7 := by simpa using isPrefixOf_exists h2
    constructor
    · rw [hu]
      rfl
    · exact Or.inr (Or.inl rfl)
  · simp only [Option.some.injEq, Prod.mk.injEq] at h
    obtain ⟨rfl, rfl⟩ := h
    have hu : u = "DELETE:".data ++ u.drop 7 := by simpa using isPrefixOf_exists h3
    constructor
    · rw [hu]
      rfl
    · exact Or.inr (Or.inr rfl)

theorem isEmpty_false_ne_nil {l : List Char} (h : ¬ l.isEmpty = true) : l ≠ [] := by
  intro hnil
  rw [hnil] at h
  exact h rfl

theorem contMatch_spec {u : List Char} {op : String} {g4 : List Char}
    (h : contMatch u = some (op, g4)) :
    ∃ w2 u2, u = w2 ++ (op.data ++ ':' :: u2) ∧ w2 ≠ [] ∧ w2.all isPySpace = true
      ∧ (op = "INSERT" ∨ op = "UPDATE" ∨ op = "DELETE") := by
  simp only [contMatch] at h
  by_cases hw : (takeRun isPySpace u).1.isEmpty = true
  · rw [if_pos hw] at h
    exact absurd h (by simp)
  · rw [if_neg hw] at h
    cases hop : opSplit (takeRun isPySpace u).2 with
    | none => rw [hop] at h; exact absurd h (by simp)
    | some p =>
      obtain ⟨op', u2⟩ := p
      rw [hop] at h
      simp only at h
      obtain ⟨hsplit, hop3⟩ := opSplit_spec hop
      have hu : u = (takeRun isPySpace u).1 ++ (op'.data ++ ':' :: u2) := by
        conv_lhs => rw [← takeRun_append isPySpace u]
        rw [hsplit]
      have hope : op' = op := by
        by_cases hw3 : (takeRun isPySpace u2).1.isEmpty = true
        · rw [if_pos hw3] at h; exact absurd h (by simp)
        · rw [if_neg hw3] at h
          cases hdt : dollarTail (takeRun isPySpace u2).2 with
          | none => rw [hdt] at h; exact absurd h (by simp)
          | some t4 =>
            rw [hdt] at h
            simp only [Option.some.injEq, Prod.mk.injEq] at h
            exact h.1
      subst hope
      exact ⟨(takeRun isPySpace u).1, u2, hu, isEmpty_false_ne_nil hw,
        takeRun_all _ _, hop3⟩

theorem colonSplits_mem {l : List Char} :
    ∀ {g2 t2 : List Char}, (g2, t2) ∈ colonSplits l → l = g2 ++ ':' :: t2 := by
  induction l with
  | nil => intro g2 t2 h; simp [colonSplits] at h
  | cons c t ih =>
    intro g2 t2 h
    simp only [colonSplits, List.mem_append, List.mem_map] at h
    rcases h with h | ⟨p, hp, hpe⟩
    · by_cases hc : c = ':'
      · rw [if_pos hc] at h
        simp only [List.mem_singleton, Prod.mk.injEq] at h
        obtain ⟨rfl, rfl⟩ := h
        simp [hc]
      · rw [if_neg hc] at h
        simp at h
    · obtain ⟨h1, h2⟩ := Prod.mk.injEq .. ▸ hpe
      subst h1
      subst h2
      have := ih (show (p.1, p.2) ∈ colonSplits t by simpa using hp)
      rw [List.cons_append, ← this]

theorem trySplits_spec {g1 r3 : List Char} {g : TblGroups} :
    ∀ {cands : List (List Char × List Char)}, trySplits g1 r3 cands = some g →
      g.schema = g1 ∧ ∃ g2 t2, (g2, t2) ∈ cands ∧ g.tbl = g2
        ∧ contMatch (t2 ++ r3) = some (g.op, g.rest) := by
  intro cands
  induction cands with
  | nil => intro h; simp [trySplits] at h
  | cons c more ih =>
    intro h
    obtain ⟨g2, t2⟩ := c
    simp only [trySplits] at h
    cases hcm : contMatch (t2 ++ r3) with
    | none =>
      rw [hcm] at h
      simp only at h
      obtain ⟨hs, g2', t2', hmem, htbl, hcont⟩ := ih h
      exact ⟨hs, g2', t2', List.mem_cons_of_mem _ hmem, htbl, hcont⟩
    | some p =>
      obtain ⟨op, g4⟩ := p
      rw [hcm] at h
      simp only [Option.some.injEq] at h
      subst h
      exact ⟨rfl, g2, t2, List.mem_cons_self _ _, rfl, hcm⟩

theorem tblAfter_decomp {r0 : List Char} {g : TblGroups} (h : tblAfter r0 = some g) :
    ∃ ws1 ws2 tail,
      r0 = ws1 ++ (g.schema ++ '.' :: (g.tbl ++ ':' :: (ws2 ++ (g.op.data ++ ':' :: tail))))
      ∧ ws1 ≠ [] ∧ ws1.all isPySpace = true
      ∧ g.schema ≠ [] ∧ g.tbl ≠ []
      ∧ ws2 ≠ [] ∧ ws2.all isPySpace = true
      ∧ (g.op = "INSERT" ∨ g.op = "UPDATE" ∨ g.op = "DELETE") := by
  simp only [tblAfter] at h
  by_cases hw : (takeRun isPySpace r0).1.isEmpty = true
  · rw [if_pos hw] at h
    exact absurd h (by simp)
  · rw [if_neg hw] at h
    cases hpost : (takeRun (fun c => !(c == '.')) (takeRun isPySpace r0).2).2 with
    | nil => rw [hpost] at h; exact absurd h (by simp)
    | cons cdot r2 =>
      rw [hpost] at h
      simp only at h
      by_cases hcond : ((takeRun (fun c => !(c == '.')) (takeRun isPySpace r0).2).1.isEmpty
          && decide ((takeRun isPySpace r0).1.length < 2)) = true
      · rw [if_pos hcond] at h
        exact absurd h (by simp)
      · rw [if_neg hcond] at h
        obtain ⟨hschema, g2, t2, hmem, htbl, hcont⟩ := trySplits_spec h
        have hmemr := List.mem_reverse.mp hmem
        have hmem' : (g2, t2) ∈ colonSplits (takeRun isTblNameChar r2).1 :=
          (List.mem_filter.mp hmemr).1
        have hg2ne : g2 ≠ [] := by
          have h2 := (List.mem_filter.mp hmemr).2
          intro hnil
          rw [hnil] at h2
          simp at h2
        have hrun2 : (takeRun isTblNameChar r2).1 = g2 ++ ':' :: t2 := colonSplits_mem hmem'
        obtain ⟨w2, u2, hu, hw2ne, hw2all, hop3⟩ := contMatch_spec hcont
        have hr2 : r2 = g2 ++ ':' :: (t2 ++ (takeRun isTblNameChar r2).2) := by
          conv_lhs => rw [← takeRun_append isTblNameChar r2]
          rw [hrun2]
          simp [List.append_assoc]
        have hdot : cdot = '.' := by
          have := takeRun_rest_head (fun c => !(c == '.')) _ _ _ hpost
          simpa using this
        have hr1 : (takeRun isPySpace r0).2
            = (takeRun (fun c => !(c == '.')) (takeRun isPySpace r0).2).1 ++ '.' :: r2 := by
          conv_lhs => rw [← takeRun_append (fun c => !(c == '.')) (takeRun isPySpace r0).2]
          rw [hpost, hdot]
        have hr0 : r0 = (takeRun isPySpace r0).1 ++ (takeRun isPySpace r0).2 :=
          (takeRun_append _ _).symm
        have hr2' : r2 = g.tbl ++ ':' :: (w2 ++ (g.op.data ++ ':' :: u2)) := by
          rw [hr2, ← hu, htbl]
        have hwsall : (takeRun isPySpace r0).1.all isPySpace = true := takeRun_all _ _
        by_cases hpre : (takeRun (fun c => !(c == '.')) (takeRun isPySpace r0).2).1.isEmpty = true
        · -- the greedy whitespace run gives one character back to group 1
          have hpre' : (takeRun (fun c => !(c == '.')) (takeRun isPySpace r0).2).1 = [] := by
            cases hx : (takeRun (fun c => !(c == '.')) (takeRun isPySpace r0).2).1 with
            | nil => rfl
            | cons a l => rw [hx] at hpre; simp at hpre
          have hlen : 2 ≤ (takeRun isPySpace r0).1.length := by
            by_contra hlt
            push_neg at hlt
            exact hcond (by simp [hpre, hlt])
          have hg1 : g.schema
              = (takeRun isPySpace r0).1.drop ((takeRun isPySpace r0).1.length - 1) := by
            rw [hschema, if_pos hpre]
          refine ⟨(takeRun isPySpace r0).1.take ((takeRun isPySpace r0).1.length - 1),
            w2, u2, ?_, ?_, ?_, ?_, htbl.symm ▸ hg2ne, ?_, hw2all, hop3⟩
          · symm
            conv_rhs => rw [hr0, hr1, hpre', hr2']
            rw [hg1, ← List.append_assoc, List.take_append_drop]
            simp
          · have hlt : (takeRun isPySpace r0).1.length - 1 > 0 := by omega
            intro hnil
            have := congrArg List.length hnil
            simp only [List.length_take, List.length_nil] at this
            omega
          · have hsub := List.take_sublist ((takeRun isPySpace r0).1.length - 1)
              (takeRun isPySpace r0).1
            simp only [List.all_eq_true] at hwsall ⊢
            exact fun c hc => hwsall c (hsub.subset hc)
          · rw [hg1]
            intro hnil
            have := congrArg List.length hnil
            simp only [List.length_drop, List.length_nil] at this
            omega
          · exact hw2ne
        · have hg1 : g.schema = (takeRun (fun c => !(c == '.')) (takeRun isPySpace r0).2).1 := by
            rw [hschema, if_neg hpre]
          refine ⟨(takeRun isPySpace r0).1, w2, u2, ?_, isEmpty_false_ne_nil hw, hwsall,
            hg1.symm ▸ isEmpty_false_ne_nil hpre, htbl.symm ▸ hg2ne, hw2ne, hw2all, hop3⟩
          symm
          conv_rhs => rw [hr0, hr1, hr2']
          try rw [hg1]
          try simp [List.append_assoc]

theorem tblMatch_decomp {s : List Char} {g : TblGroups} (h : tblMatch s = some g) :
    ∃ ws1 ws2 tail,
      s = "table".data
          ++ (ws1 ++ (g.schema ++ '.' :: (g.tbl ++ ':' :: (ws2 ++ (g.op.data ++ ':' :: tail)))))
      ∧ ws1 ≠ [] ∧ ws1.all isPySpace = true
      ∧ g.schema ≠ [] ∧ g.tbl ≠ []
      ∧ ws2 ≠ [] ∧ ws2.all isPySpace = true
      ∧ (g.op = "INSERT" ∨ g.op = "UPDATE" ∨ g.op = "DELETE") := by
  unfold tblMatch at h
  split_ifs at h with hp
  · obtain ⟨ws1, ws2, tail, hdec, rest⟩ := tblAfter_decomp h
    have hs : s = "table".data ++ s.drop 5 := by simpa using isPrefixOf_exists hp
    exact ⟨ws1, ws2, tail, by rw [hs, ← hdec], rest⟩

theorem parse_decomp {raw : String} {d : DecodedChange}
    (h : parse_test_decoding_row raw = some d) :
    ∃ ws1 ws2 tail,
      pyStrip raw.data = "table".data
          ++ (ws1 ++ (d.schema.data ++ '.' :: (d.table.data ++ ':'
            :: (ws2 ++ (d.op.data ++ ':' :: tail)))))
      ∧ ws1 ≠ [] ∧ ws1.all isPySpace = true
      ∧ d.schema.data ≠ [] ∧ d.table.data ≠ []
      ∧ ws2 ≠ [] ∧ ws2.all isPySpace = true
      ∧ (d.op = "INSERT" ∨ d.op = "UPDATE" ∨ d.op = "DELETE") := by
  unfold parse_test_decoding_row at h
  cases htm : tblMatch (pyStrip raw.data) with
  | none => rw [htm] at h; exact absurd h (by simp)
  | some g =>
    rw [htm] at h
    simp only [Option.some.injEq] at h
    subst h
    exact tblMatch_decomp htm

theorem parse_op3 {raw : String} {d : DecodedChange}
    (h : parse_test_decoding_row raw = some d) :
    d.op = "INSERT" ∨ d.op = "UPDATE" ∨ d.op = "DELETE" := by
  obtain ⟨_, _, _, _, _, _, _, _, _, _, hop⟩ := parse_decomp h
  exact hop

/-! ## Shape of the records produced by the filter -/

theorem captureRecordOf_some {ts σ τ : String} {r : RawRow} {rec : CapturedRecord}
    (h : captureRecordOf ts σ τ r = some rec) :
    rec.capture_ts = ts ∧ rec.lsn = r.lsn
      ∧ (rec.op = "INSERT" ∨ rec.op = "UPDATE" ∨ rec.op = "DELETE")
      ∧ ∃ m, rec.columns = jsonDumps m := by
  unfold captureRecordOf at h
  cases hp : parse_test_decoding_row r.data with
  | none => rw [hp] at h; exact absurd h (by simp)
  | some p =>
    rw [hp] at h
    simp only at h
    by_cases hc : p.schema = σ ∧ p.table = τ
    · rw [if_pos hc] at h
      simp only [Option.some.injEq] at h
      subst h
      exact ⟨rfl, rfl, parse_op3 hp, p.cols, rfl⟩
    · rw [if_neg hc] at h
      exact absurd h (by simp)

theorem process_mem {now : PyDatetime} {rows : List RawRow} {σ τ : String}
    {rec : CapturedRecord} (h : rec ∈ process_cdc_for_cliente now rows σ τ) :
    ∃ r, r ∈ rows ∧ captureRecordOf (isoformat now) σ τ r = some rec := by
  simpa [process_cdc_for_cliente] using List.mem_filterMap.mp h

theorem process_lsn_sublist (now : PyDatetime) (rows : List RawRow) (σ τ : String) :
    List.Sublist ((process_cdc_for_cliente now rows σ τ).map CapturedRecord.lsn)
      (rows.map RawRow.lsn) := by
  unfold process_cdc_for_cliente
  induction rows with
  | nil => simp
  | cons r rs ih =>
    cases hc : captureRecordOf (isoformat now) σ τ r with
    | none =>
      simp only [List.filterMap_cons, hc, List.map_cons]
      exact List.Sublist.cons _ ih
    | some rec =>
      simp only [List.filterMap_cons, hc, List.map_cons]
      have hlsn : rec.lsn = r.lsn := (captureRecordOf_some hc).2.1
      rw [hlsn]
      exact List.Sublist.cons₂ _ ih

theorem process_row_no_nl (now : PyDatetime) (rows : List RawRow) (σ τ : String)
    (hlsn : ∀ r ∈ rows, '\n' ∉ r.lsn.data) :
    ∀ rec ∈ process_cdc_for_cliente now rows σ τ, '\n' ∉ (csvRow rec).data := by
  intro rec hrec
  obtain ⟨r, hr, hcr⟩ := process_mem hrec
  obtain ⟨hts, hl, hop, m, hcols⟩ := captureRecordOf_some hcr
  refine csvRow_no_nl rec ?_ ?_ ?_ ?_
  · rw [hts]; exact isoformat_no_nl now
  · rw [hl]; exact hlsn r hr
  · rcases hop with hx | hx | hx <;> rw [hx] <;> decide
  · rw [hcols]; exact jsonDumps_no_nl m

/-! ## Quote stripping -/

theorem pyStrip_quoted (inner : List Char) :
    pyStrip ('\x27' :: (inner ++ ['\x27'])) = '\x27' :: (inner ++ ['\x27']) := by
  have hq : isPySpace '\x27' = false := by decide
  simp [pyStrip, List.dropWhile_cons, hq]

theorem cleanValue_quoted (inner : List Char) :
    cleanValue ('\x27' :: (inner ++ ['\x27'])) = inner := by
  unfold cleanValue
  rw [pyStrip_quoted]
  rw [if_pos]
  · simp
  · refine ⟨?_, rfl, ?_⟩
    · simp only [List.length_cons, List.length_append, List.length_singleton]
      omega
    · rw [show ('\x27' :: (inner ++ ['\x27'])) = ('\x27' :: inner) ++ ['\x27'] by simp]
      exact List.getLast?_concat _

/-! ## Sample inputs used by the witnesses -/

def sampleCaptureTime : PyDatetime := ⟨2025, 9, 1, 12, 0, 0, 0⟩

def sampleWriteTime : PyDatetime := ⟨2025, 9, 1, 12, 0, 5, 0⟩

def sampleRow : RawRow := ⟨"0/16B2D80", 745, "table db_loja.cliente: INSERT: id[integer]:1"⟩

/-! ## The claims -/

/-- Claim C1, counterexample: the serializer's header row names the
log-position column `lsn`, not `log_position`; for a concrete single-record
batch the CSV text does not begin with
`capture_ts,log_position,op,columns`. -/
theorem c1_csv_header_counterexample :
    ([⟨"2025-09-01T12:00:00", "0/16B2D80", "INSERT", "\x7b\"id\": \"1\"\x7d"⟩]
        : List CapturedRecord) ≠ []
    ∧ "capture_ts,log_position,op,columns".data.isPrefixOf
        (dfToCsv [⟨"2025-09-01T12:00:00", "0/16B2D80", "INSERT", "\x7b\"id\": \"1\"\x7d"⟩]).data
      = false :=
  ⟨by decide, by decide⟩

/-- Claim C1 (amended): for every non-empty sequence of captured records the
CSV text produced by the serializer begins with the exact header row
`capture_ts,lsn,op,columns`, even for a single-record batch. -/
theorem c1_csv_header_row (recs : List CapturedRecord) (h : recs ≠ []) :
    ∃ rest, (dfToCsv recs).data = "capture_ts,lsn,op,columns\n".data ++ rest := by
  have hempty : recs.isEmpty = false := by
    cases recs with
    | nil => exact absurd rfl h
    | cons a l => rfl
  refine ⟨(concatStrings (recs.map (fun r => csvRow r ++ "\n"))).data, ?_⟩
  unfold dfToCsv
  rw [if_neg (by simp [hempty])]
  rw [strData_append, strData_append]
  have hhd : csvHeader.data ++ "\n".data = "capture_ts,lsn,op,columns\n".data := by decide
  rw [hhd]

/-- Claim C1, witness: the header row is present for a batch of one
record. -/
theorem c1_csv_header_row_witness :
    ([⟨"2025-09-01T12:00:00", "0/16B2D80", "INSERT", "\x7b\"id\": \"1\"\x7d"⟩]
        : List CapturedRecord) ≠ []
    ∧ ∃ rest,
        (dfToCsv [⟨"2025-09-01T12:00:00", "0/16B2D80", "INSERT", "\x7b\"id\": \"1\"\x7d"⟩]).data
          = "capture_ts,lsn,op,columns\n".data ++ rest :=
  ⟨by decide, c1_csv_header_row _ (by decide)⟩

/-- Claim C2: for a batch whose filter output is non-empty (and whose log
positions contain no newline character), the cycle performs exactly one
sink put, the put object is the CSV of the filtered records, the CSV text
consists of the header line and one line per record in filter output order
(so K records give K+1 newline-terminated lines, i.e. K+2 segments with a
final empty one), and the record order is a sublist of the input
log-position order. -/
theorem c2_one_put_k_plus_one_lines (tC tW : PyDatetime) (rows : List RawRow)
    (σ τ bucket base pfx : String)
    (hlsn : ∀ r ∈ rows, '\n' ∉ r.lsn.data)
    (hne : process_cdc_for_cliente tC rows σ τ ≠ []) :
    (∃ nm, (runCycle tC tW rows σ τ bucket base pfx).puts
        = [⟨bucket, nm, dfToCsv (process_cdc_for_cliente tC rows σ τ), "text/csv"⟩])
    ∧ splitOnNewline (dfToCsv (process_cdc_for_cliente tC rows σ τ)).data
        = "capture_ts,lsn,op,columns".data
            :: ((process_cdc_for_cliente tC rows σ τ).map (fun r => (csvRow r).data) ++ [[]])
    ∧ (splitOnNewline (dfToCsv (process_cdc_for_cliente tC rows σ τ)).data).length
        = (process_cdc_for_cliente tC rows σ τ).length + 2
    ∧ List.Sublist ((process_cdc_for_cliente tC rows σ τ).map CapturedRecord.lsn)
        (rows.map RawRow.lsn) := by
  have hsplit := dfToCsv_split _ hne (process_row_no_nl tC rows σ τ hlsn)
  have hrows : rows ≠ [] := by
    intro hnil
    apply hne
    rw [hnil]
    rfl
  refine ⟨?_, ?_, ?_, process_lsn_sublist tC rows σ τ⟩
  · have hrowsE : rows.isEmpty = false := by
      cases rows with
      | nil => exact absurd rfl hrows
      | cons a l => rfl
    have hrecsE : (process_cdc_for_cliente tC rows σ τ).isEmpty = false := by
      cases hp : process_cdc_for_cliente tC rows σ τ with
      | nil => exact absurd hp hne
      | cons a l => rfl
    refine ⟨(write_csv_to_minio tW bucket base
      (process_cdc_for_cliente tC rows σ τ) pfx).objectName, ?_⟩
    unfold runCycle
    rw [if_neg (by simp [hrowsE]), if_neg (by simp [hrecsE])]
    rfl
  · rw [hsplit]
    rfl
  · rw [hsplit]
    simp only [List.length_cons, List.length_append, List.length_map, List.length_nil]

/-- Claim C2, witness at a one-row batch. -/
theorem c2_one_put_k_plus_one_lines_witness :
    '\n' ∉ ("0/16B2D80" : String).data
    ∧ process_cdc_for_cliente sampleCaptureTime [sampleRow] "db_loja" "cliente" ≠ []
    ∧ ((∃ nm, (runCycle sampleCaptureTime sampleWriteTime [sampleRow] "db_loja" "cliente"
            "raw" "inc/" "cliente_cdc").puts
        = [⟨"raw", nm,
            dfToCsv (process_cdc_for_cliente sampleCaptureTime [sampleRow] "db_loja" "cliente"),
            "text/csv"⟩])
      ∧ splitOnNewline
            (dfToCsv (process_cdc_for_cliente sampleCaptureTime [sampleRow] "db_loja" "cliente")).data
          = "capture_ts,lsn,op,columns".data
              :: ((process_cdc_for_cliente sampleCaptureTime [sampleRow] "db_loja" "cliente").map
                    (fun r => (csvRow r).data) ++ [[]])
      ∧ (splitOnNewline
            (dfToCsv (process_cdc_for_cliente sampleCaptureTime [sampleRow] "db_loja" "cliente")).data).length
          = (process_cdc_for_cliente sampleCaptureTime [sampleRow] "db_loja" "cliente").length + 2
      ∧ List.Sublist
          ((process_cdc_for_cliente sampleCaptureTime [sampleRow] "db_loja" "cliente").map
            CapturedRecord.lsn)
          ([sampleRow].map RawRow.lsn)) :=
  ⟨by decide, by decide,
    c2_one_put_k_plus_one_lines sampleCaptureTime sampleWriteTime [sampleRow] "db_loja" "cliente"
      "raw" "inc/" "cliente_cdc" (by decide) (by decide)⟩

/-- Claim C3, counterexample: the decoder strips the line before matching,
so an input that does not begin with the literal token `table` (here it
begins with a space) can still decode to a record. -/
theorem c3_leading_space_counterexample :
    "table".data.isPrefixOf " table pub.cliente: INSERT: id[integer]:1".data = false
    ∧ parse_test_decoding_row " table pub.cliente: INSERT: id[integer]:1"
        = some ⟨"pub", "cliente", "INSERT", [("id", "1")]⟩ :=
  ⟨by decide, by decide⟩

/-- Claim C3 (amended): whenever `decode` produces a record, the
whitespace-stripped input is exactly the literal `table`, whitespace, the
decoded schema, a dot, the decoded table name, a colon, whitespace, the
operation keyword (one of INSERT, UPDATE, DELETE) and a colon, followed by
the column text; contrapositively, every input whose stripped form does
not begin with this prefix yields `none` (and the decoder is total, so no
error is ever raised). -/
theorem c3_decode_requires_table_shape (raw : String) (d : DecodedChange)
    (h : parse_test_decoding_row raw = some d) :
    ∃ ws1 ws2 tail,
      pyStrip raw.data = "table".data
          ++ (ws1 ++ (d.schema.data ++ '.' :: (d.table.data ++ ':'
            :: (ws2 ++ (d.op.data ++ ':' :: tail)))))
      ∧ ws1 ≠ [] ∧ ws1.all isPySpace = true
      ∧ d.schema.data ≠ [] ∧ d.table.data ≠ []
      ∧ ws2 ≠ [] ∧ ws2.all isPySpace = true
      ∧ (d.op = "INSERT" ∨ d.op = "UPDATE" ∨ d.op = "DELETE") :=
  parse_decomp h

/-- Claim C3, witness at a concrete decodable line. -/
theorem c3_decode_requires_table_shape_witness :
    parse_test_decoding_row "table pub.cliente: DELETE: id[integer]:3"
      = some ⟨"pub", "cliente", "DELETE", [("id", "3")]⟩
    ∧ ∃ ws1 ws2 tail,
        pyStrip ("table pub.cliente: DELETE: id[integer]:3" : String).data = "table".data
            ++ (ws1 ++ (("pub" : String).data ++ '.' :: (("cliente" : String).data ++ ':'
              :: (ws2 ++ (("DELETE" : String).data ++ ':' :: tail)))))
        ∧ ws1 ≠ [] ∧ ws1.all isPySpace = true
        ∧ ("pub" : String).data ≠ [] ∧ ("cliente" : String).data ≠ []
        ∧ ws2 ≠ [] ∧ ws2.all isPySpace = true
        ∧ (("DELETE" : String) = "INSERT" ∨ ("DELETE" : String) = "UPDATE"
            ∨ ("DELETE" : String) = "DELETE") :=
  ⟨by decide,
    c3_decode_requires_table_shape "table pub.cliente: DELETE: id[integer]:3"
      ⟨"pub", "cliente", "DELETE", [("id", "3")]⟩ (by decide)⟩

/-- Claim C4: the documented example payload decodes to schema `pub`,
table `cliente`, operation INSERT, and the ordered column map
`id ↦ 1, name ↦ Ana Silva`. -/
theorem c4_example_decode :
    parse_test_decoding_row "table pub.cliente: INSERT: id[integer]:1 name[text]:\x27Ana Silva\x27"
      = some ⟨"pub", "cliente", "INSERT", [("id", "1"), ("name", "Ana Silva")]⟩ := by
  decide

/-- Claim C5: a single-quote-wrapped value loses exactly the outer quote
pair and is otherwise passed through verbatim (no unescaping), and the
boundary payload with embedded whitespace inside the quotes decodes to the
whole phrase as one value. -/
theorem c5_quote_stripping :
    (∀ inner : List Char, cleanValue ('\x27' :: (inner ++ ['\x27'])) = inner)
    ∧ parse_test_decoding_row "table pub.cliente: INSERT: name[text]:\x27Ana Maria Silva\x27"
        = some ⟨"pub", "cliente", "INSERT", [("name", "Ana Maria Silva")]⟩ :=
  ⟨cleanValue_quoted, by decide⟩

/-- Claim C6: an entry that decodes successfully but whose (schema, table)
differs from the target under exact string equality produces no captured
record. -/
theorem c6_filter_mismatch (ts σ τ : String) (r : RawRow) (p : DecodedChange)
    (hp : parse_test_decoding_row r.data = some p)
    (hne : ¬ (p.schema = σ ∧ p.table = τ)) :
    captureRecordOf ts σ τ r = none := by
  unfold captureRecordOf
  rw [hp]
  simp only
  rw [if_neg hne]

/-- Claim C6, witness: a decodable line whose table differs from the target
only by letter case is dropped. -/
theorem c6_filter_mismatch_witness :
    parse_test_decoding_row
        ("table db_loja.Cliente: UPDATE: id[integer]:1" : String)
      = some ⟨"db_loja", "Cliente", "UPDATE", [("id", "1")]⟩
    ∧ ¬ ((("db_loja" : String) = "db_loja") ∧ (("Cliente" : String) = "cliente"))
    ∧ captureRecordOf "2025-09-01T12:00:00" "db_loja" "cliente"
        ⟨"0/16B2D80", 745, "table db_loja.Cliente: UPDATE: id[integer]:1"⟩ = none :=
  ⟨by decide, by decide,
    c6_filter_mismatch "2025-09-01T12:00:00" "db_loja" "cliente"
      ⟨"0/16B2D80", 745, "table db_loja.Cliente: UPDATE: id[integer]:1"⟩
      ⟨"db_loja", "Cliente", "UPDATE", [("id", "1")]⟩ (by decide) (by decide)⟩

/-- Claim C7, counterexample: `write_csv_to_minio` itself contains no
emptiness guard — called on an empty record sequence it still performs one
sink put (of a single newline, the rendering of the empty DataFrame). -/
theorem c7_writer_writes_on_empty_counterexample :
    (write_csv_to_minio ⟨2025, 9, 1, 12, 0, 0, 0⟩ "raw" "inc/" [] "cliente_cdc").puts
      = [⟨"raw", "inc/data=20250901/cliente_cdc_20250901_120000.csv", "\n", "text/csv"⟩]
    ∧ (write_csv_to_minio ⟨2025, 9, 1, 12, 0, 0, 0⟩ "raw" "inc/" [] "cliente_cdc").puts ≠ [] :=
  ⟨by decide, by decide⟩

/-- Claim C7 (amended): the emptiness guard lives in the driver, which
returns before invoking the writer; for a cycle whose filter yields no
captured records, no sink put is performed, the destination path is
absent and the written-record count is zero. -/
theorem c7_empty_cycle_no_put (tC tW : PyDatetime) (rows : List RawRow)
    (σ τ bucket base pfx : String)
    (h : process_cdc_for_cliente tC rows σ τ = []) :
    (runCycle tC tW rows σ τ bucket base pfx).puts = []
    ∧ (runCycle tC tW rows σ τ bucket base pfx).destinationPath = none
    ∧ (runCycle tC tW rows σ τ bucket base pfx).recordsWritten = 0 := by
  unfold runCycle
  by_cases hrows : rows.isEmpty = true
  · rw [if_pos hrows]
    exact ⟨rfl, rfl, rfl⟩
  · rw [if_neg hrows]
    simp [h]

/-- Claim C7, witness: a batch containing only a transaction marker line
yields no records, no put and an absent destination path. -/
theorem c7_empty_cycle_no_put_witness :
    process_cdc_for_cliente ⟨2025, 9, 1, 12, 0, 0, 0⟩ [⟨"0/0", 1, "BEGIN 745"⟩]
        "db_loja" "cliente" = []
    ∧ ((runCycle ⟨2025, 9, 1, 12, 0, 0, 0⟩ ⟨2025, 9, 1, 12, 0, 1, 0⟩ [⟨"0/0", 1, "BEGIN 745"⟩]
          "db_loja" "cliente" "raw" "inc/" "cliente_cdc").puts = []
      ∧ (runCycle ⟨2025, 9, 1, 12, 0, 0, 0⟩ ⟨2025, 9, 1, 12, 0, 1, 0⟩ [⟨"0/0", 1, "BEGIN 745"⟩]
          "db_loja" "cliente" "raw" "inc/" "cliente_cdc").destinationPath = none
      ∧ (runCycle ⟨2025, 9, 1, 12, 0, 0, 0⟩ ⟨2025, 9, 1, 12, 0, 1, 0⟩ [⟨"0/0", 1, "BEGIN 745"⟩]
          "db_loja" "cliente" "raw" "inc/" "cliente_cdc").recordsWritten = 0) :=
  ⟨by decide,
    c7_empty_cycle_no_put ⟨2025, 9, 1, 12, 0, 0, 0⟩ ⟨2025, 9, 1, 12, 0, 1, 0⟩
      [⟨"0/0", 1, "BEGIN 745"⟩] "db_loja" "cliente" "raw" "inc/" "cliente_cdc" (by decide)⟩

/-- Claim C8, counterexample: the options passed to
`pg_logical_slot_get_changes` set `include-xids` to `0` (disabled), so the
fetch does not request include-transaction-id semantics. -/
theorem c8_include_xids_disabled_counterexample :
    cdcGetChangesOptions.lookup "include-xids" = some "0"
    ∧ ¬ (cdcGetChangesOptions.lookup "include-xids" = some "1"
        ∧ cdcGetChangesOptions.lookup "skip-empty-xacts" = some "1") :=
  ⟨by decide, by decide⟩

/-- Claim C8 (amended): every fetch issues exactly one `get_changes` call
whose options enable skip-empty-transactions (`skip-empty-xacts = 1`) and
disable the textual transaction-id output (`include-xids = 0`); the
per-row transaction id is still selected as the `xid` column. -/
theorem c8_fetch_options
    (getChanges : String → Option String → Int → List (String × String) → List (String × Int × String))
    (slot : String) (lim : Int) :
    fetch_cdc_changes getChanges slot lim
      = (getChanges slot none lim cdcGetChangesOptions).map (fun row => ⟨row.1, row.2.1, row.2.2⟩)
    ∧ cdcGetChangesOptions.lookup "skip-empty-xacts" = some "1"
    ∧ cdcGetChangesOptions.lookup "include-xids" = some "0" :=
  ⟨rfl, by decide, by decide⟩

/-- Claim C9: the capture timestamp is taken once per batch, before the
per-entry loop, so every record produced by one filter run carries the
same `capture_ts` value, the rendering of the batch capture instant. -/
theorem c9_shared_capture_timestamp (now : PyDatetime) (rows : List RawRow) (σ τ : String)
    (rec : CapturedRecord) (h : rec ∈ process_cdc_for_cliente now rows σ τ) :
    rec.capture_ts = isoformat now := by
  obtain ⟨r, hr, hcr⟩ := process_mem h
  exact (captureRecordOf_some hcr).1

/-- Claim C9, witness: the second record of a two-row batch carries the
batch capture timestamp. -/
theorem c9_shared_capture_timestamp_witness :
    (⟨"2025-09-01T12:00:00", "0/2", "UPDATE", "\x7b\"id\": \"1\"\x7d"⟩ : CapturedRecord)
        ∈ process_cdc_for_cliente ⟨2025, 9, 1, 12, 0, 0, 0⟩
          [⟨"0/1", 1, "table db_loja.cliente: INSERT: id[integer]:1"⟩,
           ⟨"0/2", 2, "table db_loja.cliente: UPDATE: id[integer]:1"⟩] "db_loja" "cliente"
    ∧ (⟨"2025-09-01T12:00:00", "0/2", "UPDATE", "\x7b\"id\": \"1\"\x7d"⟩
          : CapturedRecord).capture_ts
        = isoformat ⟨2025, 9, 1, 12, 0, 0, 0⟩ :=
  ⟨by decide,
    c9_shared_capture_timestamp ⟨2025, 9, 1, 12, 0, 0, 0⟩
      [⟨"0/1", 1, "table db_loja.cliente: INSERT: id[integer]:1"⟩,
       ⟨"0/2", 2, "table db_loja.cliente: UPDATE: id[integer]:1"⟩] "db_loja" "cliente"
      ⟨"2025-09-01T12:00:00", "0/2", "UPDATE", "\x7b\"id\": \"1\"\x7d"⟩ (by decide)⟩

/-- Claim C10: the destination path is a function of the writer's own
clock read (and the static bucket/path configuration) only, while every
record's `capture_ts` is the rendering of the filter's clock read only, so
the two can denote different dates. -/
theorem c10_path_from_write_clock (tC tW : PyDatetime) (rows : List RawRow)
    (σ τ bucket base pfx : String) (rec : CapturedRecord)
    (h : rec ∈ process_cdc_for_cliente tC rows σ τ) :
    (write_csv_to_minio tW bucket base (process_cdc_for_cliente tC rows σ τ) pfx).objectName
      = base ++ ("data=" ++ strfDate tW) ++ "/" ++ (pfx ++ "_" ++ strfFileTs tW ++ ".csv")
    ∧ rec.capture_ts = isoformat tC := by
  constructor
  · rfl
  · obtain ⟨r, hr, hcr⟩ := process_mem h
    exact (captureRecordOf_some hcr).1

/-- Claim C10, witness: a batch captured late on 2025-01-31 and written
just after midnight lands under the `data=20250201` partition while its
`capture_ts` column still reads `2025-01-31T23:59:59`. -/
theorem c10_path_from_write_clock_witness :
    (⟨"2025-01-31T23:59:59", "0/1A2B3C8", "INSERT", "\x7b\"id\": \"7\", \"nome\": \"Bia\"\x7d"⟩
          : CapturedRecord)
        ∈ process_cdc_for_cliente ⟨2025, 1, 31, 23, 59, 59, 0⟩
          [⟨"0/1A2B3C8", 900, "table db_loja.cliente: INSERT: id[integer]:7 nome[text]:\x27Bia\x27"⟩]
          "db_loja" "cliente"
    ∧ ((write_csv_to_minio ⟨2025, 2, 1, 0, 0, 1, 0⟩ "raw" "inc/"
          (process_cdc_for_cliente ⟨2025, 1, 31, 23, 59, 59, 0⟩
            [⟨"0/1A2B3C8", 900, "table db_loja.cliente: INSERT: id[integer]:7 nome[text]:\x27Bia\x27"⟩]
            "db_loja" "cliente") "cliente_cdc").objectName
        = "inc/" ++ ("data=" ++ strfDate ⟨2025, 2, 1, 0, 0, 1, 0⟩) ++ "/"
            ++ ("cliente_cdc" ++ "_" ++ strfFileTs ⟨2025, 2, 1, 0, 0, 1, 0⟩ ++ ".csv")
      ∧ (⟨"2025-01-31T23:59:59", "0/1A2B3C8", "INSERT", "\x7b\"id\": \"7\", \"nome\": \"Bia\"\x7d"⟩
            : CapturedRecord).capture_ts
          = isoformat ⟨2025, 1, 31, 23, 59, 59, 0⟩)
    ∧ (write_csv_to_minio ⟨2025, 2, 1, 0, 0, 1, 0⟩ "raw" "inc/"
          (process_cdc_for_cliente ⟨2025, 1, 31, 23, 59, 59, 0⟩
            [⟨"0/1A2B3C8", 900, "table db_loja.cliente: INSERT: id[integer]:7 nome[text]:\x27Bia\x27"⟩]
            "db_loja" "cliente") "cliente_cdc").objectName
        = "inc/data=20250201/cliente_cdc_20250201_000001.csv"
    ∧ (⟨"2025-01-31T23:59:59", "0/1A2B3C8", "INSERT", "\x7b\"id\": \"7\", \"nome\": \"Bia\"\x7d"⟩
          : CapturedRecord).capture_ts
        = "2025-01-31T23:59:59" :=
  ⟨by decide,
    c10_path_from_write_clock ⟨2025, 1, 31, 23, 59, 59, 0⟩ ⟨2025, 2, 1, 0, 0, 1, 0⟩
      [⟨"0/1A2B3C8", 900, "table db_loja.cliente: INSERT: id[integer]:7 nome[text]:\x27Bia\x27"⟩]
      "db_loja" "cliente" "raw" "inc/" "cliente_cdc"
      ⟨"2025-01-31T23:59:59", "0/1A2B3C8", "INSERT", "\x7b\"id\": \"7\", \"nome\": \"Bia\"\x7d"⟩
      (by decide),
    by decide, by decide⟩
